import Mathlib

/-!
Shallow embedding of `backend/server/server.py` (FastAPI research-job server).

Paths are modelled as lists of components (`os.path.join a b` becomes
`a ++ [b]`); the process environment is a record of the variables the server
reads or writes; the filesystem is a record of existing directory paths and
files; the opaque collaborators (`run_agent`, `write_md_to_word`,
`write_md_to_pdf`) are parameters of the embedding.  Submission time is
modelled in milliseconds, so Python's `int(time.time())` becomes
`nowMs / 1000`.
-/

set_option linter.unusedVariables false

/-- A filesystem path, one component per list entry (`os.path.join a b` is
modelled as `a ++ [b]`). -/
abbrev FsPath := List String

/-- The process environment: the variables `server.py` reads or writes.
`VECTOR_STORE_PATH` and `DOC_PATH` hold path values, the deep-research
variables hold the strings `str(...)` stores in them. -/
structure Env where
  VECTOR_STORE_PATH : Option FsPath
  DOC_PATH : Option FsPath
  DEEP_RESEARCH_DEPTH : Option String
  DEEP_RESEARCH_BREADTH : Option String
deriving DecidableEq

/-- Model of `os.environ.get("VECTOR_STORE_PATH", "vector_store")`. -/
def vsRoot (env : Env) : FsPath := env.VECTOR_STORE_PATH.getD ["vector_store"]

/-- The filesystem: the set of existing directory paths and the existing
files with their contents. -/
structure FS where
  dirs : List FsPath
  files : List (FsPath × String)
deriving DecidableEq

/-- Model of `os.path.isdir`. -/
def fsIsDir (fs : FS) (p : FsPath) : Bool := decide (p ∈ fs.dirs)

/-- A regular file exists at `p`. -/
def fsIsFile (fs : FS) (p : FsPath) : Bool := decide (p ∈ fs.files.map Prod.fst)

/-- Model of `os.path.exists`. -/
def fsExists (fs : FS) (p : FsPath) : Bool := fsIsDir fs p || fsIsFile fs p

/-- Filesystem well-formedness: no path is simultaneously two entries, and
the empty path is not a directory (Python's `os.path.isdir("")` is false). -/
def FS.wf (fs : FS) : Prop :=
  (fs.dirs ++ fs.files.map Prod.fst).Nodup ∧ [] ∉ fs.dirs

/-- All nonempty proper-or-full prefixes of a path, shortest first: the
directories `os.makedirs` walks through. -/
def pathInits (p : FsPath) : List FsPath :=
  (List.range p.length).map (fun i => p.take (i + 1))

/-- One step of `os.makedirs(..., exist_ok=True)`: skip an existing
directory, fail on a path blocked by a regular file, otherwise create. -/
def mkdirsList (fs : FS) : List FsPath → Except String FS
  | [] => Except.ok fs
  | q :: qs =>
      if fsIsDir fs q then mkdirsList fs qs
      else if fsIsFile fs q then Except.error "NotADirectoryError"
      else mkdirsList { dirs := q :: fs.dirs, files := fs.files } qs

/-- Model of `os.makedirs(p, exist_ok=True)`: create every missing directory on the
way to `p`.  (On failure the partially-created state is not observed by any
route, so the error case carries no filesystem.) -/
def makedirs (fs : FS) (p : FsPath) : Except String FS := mkdirsList fs (pathInits p)

/-- Store a file at `p` (overwriting any previous file at `p`). -/
def storeFile (fs : FS) (p : FsPath) (content : String) : FS :=
  { dirs := fs.dirs, files := (p, content) :: fs.files.filter (fun e => decide (e.fst ≠ p)) }

/-- Characters kept verbatim by the storage-key sanitizer: ASCII digits
(48-57), upper-case letters (65-90), lower-case letters (97-122),
underscore (95) and hyphen (45). -/
def safeChar (c : Char) : Bool :=
  (48 ≤ c.toNat && c.toNat ≤ 57) || (65 ≤ c.toNat && c.toNat ≤ 90) ||
    (97 ≤ c.toNat && c.toNat ≤ 122) || c.toNat = 95 || c.toNat = 45

/-- Sanitize one character: unsafe characters are replaced by `'_'`. -/
def sanChar (c : Char) : Char := if safeChar c then c else '_'

/-- Modelled from the spec: `sanitize_filename` lives in
`backend/server/server_utils.py`, which is outside the source slice; per the
spec the identity is "sanitized to be safe as a storage key (no path
separators, control characters, or characters invalid for filesystem/URL
use)", modelled as replacing every character other than ASCII alphanumerics,
underscore and hyphen by an underscore. -/
def sanitize_filename (s : String) : String := String.mk (s.data.map sanChar)

/-- The decimal digit character for `d < 10` (`'0'` has code point 48). -/
def decDigitChar (d : Nat) : Char := Char.ofNat (48 + d)

/-- Fuel-driven decimal rendering of a natural number, most significant
digit first; `fuel > n` makes the recursion total. -/
def natDecimalAux : Nat → Nat → List Char
  | 0, _ => []
  | fuel + 1, n =>
      if n < 10 then [decDigitChar n]
      else natDecimalAux fuel (n / 10) ++ [decDigitChar (n % 10)]

/-- The decimal digits of `n`, as Python's `str` renders a nonnegative
`int` (no sign, no leading zeros). -/
def natDecimal (n : Nat) : List Char := natDecimalAux (n + 1) n

/-- Model of `str(n)` for a nonnegative Python int. -/
def natDecimalStr (n : Nat) : String := String.mk (natDecimal n)

/-- Model of `sanitize_filename(f"task_{int(time.time())}_{task}")`: the job identity
assigned by `generate_report`; `nowMs` is the submission time in
milliseconds, so `int(time.time())` is `nowMs / 1000`. -/
def mkResearchId (nowMs : Nat) (task : String) : String :=
  sanitize_filename ("task_" ++ natDecimalStr (nowMs / 1000) ++ "_" ++ task)

/-- Modelled from the spec: the `Tone` enum lives in
`gpt_researcher/utils/enum.py`, outside the source slice; per the spec, tone
values must "belong to a known enumerated set", `Tone[...]` being a lookup
by member name that raises `KeyError` for any other string. -/
def toneNames : List String :=
  ["Objective", "Formal", "Analytical", "Persuasive", "Informative",
   "Explanatory", "Descriptive", "Critical", "Comparative", "Speculative",
   "Reflective", "Narrative", "Humorous", "Optimistic", "Pessimistic"]

/-- The `KeyError` raised by `Tone[tone]` for an unknown member name. -/
def keyErrorMsg (tone : String) : String := "KeyError: " ++ tone

/-- Model of `dict.get(k, dflt)` on a string-keyed dictionary of integers. -/
def dictGet (d : List (String × Int)) (k : String) (dflt : Int) : Int :=
  match d.find? (fun e => e.fst == k) with
  | some e => e.snd
  | none => dflt

/-- The body of a `POST /report/` request (`ResearchRequest` in
`server.py`); `deep_research_config` is a string-keyed dictionary. -/
structure ResearchRequest where
  task : String
  report_type : String
  report_source : String
  tone : String
  headers : Option (List (String × String))
  repo_name : String
  branch_name : String
  knowledge_base : Option String
  deep_research_config : Option (List (String × Int))
  generate_in_background : Bool
deriving DecidableEq

/-- The first mutation block of `write_report`: when
`research_request.deep_research_config` is truthy (not `None`, not the empty
dict), set `DEEP_RESEARCH_DEPTH` and `DEEP_RESEARCH_BREADTH` from the dict
(defaults 2 and 4). -/
def envAfterConfig (env : Env) (req : ResearchRequest) : Env :=
  match req.deep_research_config with
  | some cfg =>
      if cfg.isEmpty then env
      else
        { env with
          DEEP_RESEARCH_DEPTH := some (toString (dictGet cfg "max_iterations" 2)),
          DEEP_RESEARCH_BREADTH := some (toString (dictGet cfg "max_search_results_per_query" 4)) }
  | none => env

/-- The second mutation block of `write_report`: when
`research_request.knowledge_base` is truthy (not `None`, not `""`), set
`DOC_PATH` to the `docs` subfolder of the knowledge base. -/
def envAfterKb (env : Env) (req : ResearchRequest) : Env :=
  match req.knowledge_base with
  | some kb =>
      if kb.isEmpty then env
      else { env with DOC_PATH := some (vsRoot env ++ [kb, "docs"]) }
  | none => env

/-- The `vector_store_path` argument `write_report` passes to `run_agent`. -/
def vectorStorePathOf (env : Env) (req : ResearchRequest) : Option FsPath :=
  match req.knowledge_base with
  | some kb => if kb.isEmpty then none else some (vsRoot env ++ [kb])
  | none => none

/-- The arguments of the `run_agent` call inside `write_report` that the
claims depend on. -/
structure RunAgentCall where
  task : String
  report_type : String
  report_source : String
  tone : String
  vector_store_path : Option FsPath
deriving DecidableEq

/-- The result of the opaque research computation, as consumed by
`write_report` (`report_information` plus the researcher accessors). -/
structure ResearchOutcome where
  report : String
  source_urls : List String
  research_costs : Int
  visited_urls : List String
  research_images : List String
deriving DecidableEq

/-- The opaque collaborators of `server.py`: the research computation and
the two artifact renderers (all external modules). -/
structure Collab where
  run_agent : RunAgentCall → Except String ResearchOutcome
  write_md_to_word : String → String → FsPath
  write_md_to_pdf : String → String → FsPath

/-- The `research_information` sub-dictionary of a `write_report` response. -/
structure ResearchInformation where
  source_urls : List String
  research_costs : Int
  visited_urls : List String
  research_images : List String
deriving DecidableEq

/-- The response dictionary `write_report` builds (in the `multi_agents`
branch the `research_information` key is absent and `report` is `""`). -/
structure ReportResponse where
  research_id : String
  research_information : Option ResearchInformation
  report : String
  docx_path : FsPath
  pdf_path : FsPath
deriving DecidableEq

/-- The `run_agent` call made by `write_report`: the tone member lookup has
already succeeded and `vector_store_path` is resolved against the
environment after the deep-research mutation. -/
def runAgentCallOf (env : Env) (req : ResearchRequest) : RunAgentCall :=
  { task := req.task, report_type := req.report_type,
    report_source := req.report_source, tone := req.tone,
    vector_store_path := vectorStorePathOf (envAfterConfig env req) req }

/-- The fallible part of `write_report` after the environment mutations:
tone member lookup, the research computation, artifact rendering and
response assembly.  An `Except.error` models a raised exception. -/
def writeReportBody (co : Collab) (env : Env) (req : ResearchRequest)
    (research_id : String) : Except String ReportResponse :=
  if req.tone ∈ toneNames then
    match co.run_agent (runAgentCallOf env req) with
    | Except.error e => Except.error e
    | Except.ok out =>
        let docx_path := co.write_md_to_word out.report research_id
        let pdf_path := co.write_md_to_pdf out.report research_id
        if req.report_type ≠ "multi_agents" then
          Except.ok
            { research_id := research_id,
              research_information := some
                { source_urls := out.source_urls,
                  research_costs := out.research_costs,
                  visited_urls := out.visited_urls,
                  research_images := out.research_images },
              report := out.report, docx_path := docx_path, pdf_path := pdf_path }
        else
          Except.ok
            { research_id := research_id, research_information := none,
              report := "", docx_path := docx_path, pdf_path := pdf_path }
  else Except.error (keyErrorMsg req.tone)

/-- Model of `write_report`: first the two unconditional environment mutations, then
the fallible body; the returned pair is (environment after the call, raised
exception or response). -/
def write_report (co : Collab) (env : Env) (req : ResearchRequest)
    (research_id : String) : Env × Except String ReportResponse :=
  (envAfterKb (envAfterConfig env req) req, writeReportBody co env req research_id)

/-- What `POST /report/` sends back: the background acknowledgement dict,
the foreground response, or a propagated exception. -/
inductive SubmitResult where
  | queued (message : String) (research_id : String)
  | completed (resp : ReportResponse)
  | failed (error : String)
deriving DecidableEq

/-- A task handed to FastAPI's `BackgroundTasks`, to be executed only after
the response has been returned to the caller. -/
structure BackgroundTask where
  req : ResearchRequest
  research_id : String
deriving DecidableEq

/-- The observable outcome of one `POST /report/` call: the response, the
background tasks scheduled by it, and the environment at return time. -/
structure SubmitOutcome where
  response : SubmitResult
  pending : List BackgroundTask
  env : Env
deriving DecidableEq

/-- The acknowledgement message of a background submission. -/
def queuedMessage : String :=
  "Your report is being generated in the background. Please check back later."

/-- Model of `generate_report` (`POST /report/`): derive the job identity, then
either schedule `write_report` as a background task and acknowledge, or run
it synchronously. -/
def generate_report (co : Collab) (env : Env) (req : ResearchRequest)
    (nowMs : Nat) : SubmitOutcome :=
  let research_id := mkResearchId nowMs req.task
  if req.generate_in_background then
    { response := SubmitResult.queued queuedMessage research_id,
      pending := [{ req := req, research_id := research_id }], env := env }
  else
    match (write_report co env req research_id).2 with
    | Except.ok resp =>
        { response := SubmitResult.completed resp, pending := [],
          env := (write_report co env req research_id).1 }
    | Except.error e =>
        { response := SubmitResult.failed e, pending := [],
          env := (write_report co env req research_id).1 }

/-- What `GET /report/{research_id}` sends back: a `FileResponse` or the
plain `{"message": "Report not found."}` dict. -/
inductive ReadReportResult where
  | fileResp (path : FsPath)
  | jsonOk (message : String)
deriving DecidableEq

/-- Model of `os.path.join('outputs', ...)`: the artifact path `outputs/<id>.docx`. -/
def outputsDocxPath (research_id : String) : FsPath :=
  ["outputs", research_id ++ ".docx"]

/-- Model of `read_report` (`GET /report/...`). -/
def read_report (fs : FS) (research_id : String) : ReadReportResult :=
  if fsExists fs (outputsDocxPath research_id) then
    ReadReportResult.fileResp (outputsDocxPath research_id)
  else ReadReportResult.jsonOk "Report not found."

/-- The HTTP status FastAPI attaches to each `read_report` return value: a
plain dict and a `FileResponse` are both 200. -/
def readReportStatus : ReadReportResult → Nat
  | ReadReportResult.fileResp _ => 200
  | ReadReportResult.jsonOk _ => 200

/-- What `POST /upload/` sends back. -/
inductive UploadResult where
  | badRequest (message : String)
  | ok (message : String)
  | serverError (message : String)
deriving DecidableEq

/-- The HTTP status of each `upload_file` return value. -/
def uploadStatus : UploadResult → Nat
  | UploadResult.badRequest _ => 400
  | UploadResult.ok _ => 200
  | UploadResult.serverError _ => 500

/-- Modelled from the spec: `handle_file_upload` lives in
`backend/server/server_utils.py`, outside the source slice; per the spec an
upload stores the document under the given document path and succeeds. -/
def handle_file_upload (fs : FS) (doc_path : FsPath) (filename content : String) :
    UploadResult × FS :=
  (UploadResult.ok "File uploaded successfully", storeFile fs (doc_path ++ [filename]) content)

/-- Model of `upload_file` (`POST /upload/`): reject an empty knowledge-base name
with a 400, otherwise create `<root>/<knowledge_base>/docs` (including all
missing intermediate directories) and store the file there. -/
def upload_file (env : Env) (fs : FS) (filename content : String)
    (knowledge_base : String) : UploadResult × FS :=
  if knowledge_base.isEmpty then
    (UploadResult.badRequest "Knowledge base name is required.", fs)
  else
    let kb_path := vsRoot env ++ [knowledge_base]
    let doc_path := kb_path ++ ["docs"]
    match makedirs fs doc_path with
    | Except.error e => (UploadResult.serverError e, fs)
    | Except.ok fs1 => handle_file_upload fs1 doc_path filename content

/-- The name of a direct child of `root`, when `p` is one. -/
def childName (root : FsPath) (p : FsPath) : Option String :=
  match p.getLast? with
  | some n => if p.dropLast = root then some n else none
  | none => none

/-- All existing entry paths (directories and files). -/
def fsEntries (fs : FS) : List FsPath := fs.dirs ++ fs.files.map Prod.fst

/-- Model of `get_knowledge_bases` (`GET /knowledge-bases`): the names of the
subdirectories of the vector-store root, empty when the root is not a
directory (`os.listdir` filtered by `os.path.isdir`). -/
def get_knowledge_bases (env : Env) (fs : FS) : List String :=
  let root := vsRoot env
  if fsIsDir fs root then
    ((fsEntries fs).filterMap (childName root)).filter
      (fun n => fsIsDir fs (root ++ [n]))
  else []

/-- A trivial instantiation of the opaque collaborators, used to evaluate
the embedding at concrete inputs. -/
def collab0 : Collab :=
  { run_agent := fun _ => Except.error "research computation was invoked",
    write_md_to_word := fun _ rid => ["outputs", rid ++ ".docx"],
    write_md_to_pdf := fun _ rid => ["outputs", rid ++ ".pdf"] }

/-- A collaborator whose research computation succeeds with a fixed
outcome. -/
def outcome0 : ResearchOutcome :=
  { report := "# Findings", source_urls := ["https://example.org"],
    research_costs := 3, visited_urls := ["https://example.org/a"],
    research_images := [] }

/-- A collaborator instantiation with a succeeding research computation. -/
def collab1 : Collab :=
  { run_agent := fun _ => Except.ok outcome0,
    write_md_to_word := fun _ rid => ["outputs", rid ++ ".docx"],
    write_md_to_pdf := fun _ rid => ["outputs", rid ++ ".pdf"] }

/-- An environment with no variables set. -/
def env0 : Env :=
  { VECTOR_STORE_PATH := none, DOC_PATH := none,
    DEEP_RESEARCH_DEPTH := none, DEEP_RESEARCH_BREADTH := none }

/-- A valid background submission. -/
def req0 : ResearchRequest :=
  { task := "foo", report_type := "research_report", report_source := "web",
    tone := "Objective", headers := none, repo_name := "r",
    branch_name := "main", knowledge_base := none,
    deep_research_config := none, generate_in_background := true }

/-- A background submission whose tone is not a `Tone` member. -/
def reqBadTone : ResearchRequest :=
  { req0 with tone := "Bogus" }

/-- A foreground submission with a knowledge base and deep-research
tuning. -/
def reqKb : ResearchRequest :=
  { req0 with
    knowledge_base := some "kb1",
    deep_research_config := some [("max_iterations", 3)],
    generate_in_background := false }

/-- The empty filesystem. -/
def fs0 : FS := { dirs := [], files := [] }

/-- A filesystem holding one rendered artifact, used to evaluate
`read_report` at concrete inputs. -/
def fsDocx : FS := { dirs := [], files := [(["outputs", "r1.docx"], "bytes")] }

/-- A filesystem where the knowledge-base directories already exist. -/
def fsPre : FS :=
  { dirs := [["vector_store"], ["vector_store", "kb1"]], files := [] }

/-- A valid foreground submission. -/
def reqFg : ResearchRequest := { req0 with generate_in_background := false }

theorem decDigitChar_toNat : ∀ d < 10, (decDigitChar d).toNat = 48 + d := by decide

theorem decDigitChar_inj {d e : Nat} (hd : d < 10) (he : e < 10)
    (h : decDigitChar d = decDigitChar e) : d = e := by
  have h1 := decDigitChar_toNat d hd
  have h2 := decDigitChar_toNat e he
  rw [h] at h1
  omega

theorem natDecimalAux_ne_nil : ∀ (f n : Nat), n < f → natDecimalAux f n ≠ [] := by
  intro f n hf
  match f with
  | 0 => omega
  | g + 1 =>
      unfold natDecimalAux
      split
      · simp
      · simp

theorem natDecimalAux_digits : ∀ (f n : Nat), n < f →
    ∀ c ∈ natDecimalAux f n, ∃ d, d < 10 ∧ c = decDigitChar d := by
  intro f
  induction f with
  | zero => intro n hn; omega
  | succ g ih =>
      intro n hn c hc
      unfold natDecimalAux at hc
      by_cases hsmall : n < 10
      · rw [if_pos hsmall] at hc
        simp at hc
        exact ⟨n, hsmall, hc⟩
      · rw [if_neg hsmall] at hc
        rcases List.mem_append.mp hc with h1 | h2
        · have hlt : n / 10 < g := by
            have := Nat.div_lt_self (by omega : 0 < n) (by omega : 1 < 10)
            omega
          exact ih (n / 10) hlt c h1
        · simp at h2
          exact ⟨n % 10, Nat.mod_lt _ (by omega), h2⟩

theorem append_singleton_inj {α : Type _} {a b : List α} {x y : α}
    (h : a ++ [x] = b ++ [y]) : a = b ∧ x = y := by
  have h' := congrArg List.reverse h
  simp at h'
  exact ⟨h'.2, h'.1⟩

theorem natDecimalAux_inj : ∀ (f1 n1 f2 n2 : Nat), n1 < f1 → n2 < f2 →
    natDecimalAux f1 n1 = natDecimalAux f2 n2 → n1 = n2 := by
  intro f1
  induction f1 with
  | zero => intro n1 f2 n2 h1; omega
  | succ g1 ih =>
      intro n1 f2 n2 h1 h2 heq
      match f2 with
      | 0 => omega
      | g2 + 1 =>
          unfold natDecimalAux at heq
          by_cases hs1 : n1 < 10 <;> by_cases hs2 : n2 < 10
          · rw [if_pos hs1, if_pos hs2] at heq
            simp at heq
            exact decDigitChar_inj hs1 hs2 heq
          · rw [if_pos hs1, if_neg hs2] at heq
            have hlt2 : n2 / 10 < g2 := by
              have := Nat.div_lt_self (by omega : 0 < n2) (by omega : 1 < 10)
              omega
            have hne := natDecimalAux_ne_nil g2 (n2 / 10) hlt2
            have hlen := congrArg List.length heq
            simp at hlen
            cases List.eq_nil_or_concat (natDecimalAux g2 (n2 / 10)) with
            | inl hnil => exact absurd hnil hne
            | inr hcc => obtain ⟨L, b, hL⟩ := hcc; rw [hL] at hlen; simp at hlen
          · rw [if_neg hs1, if_pos hs2] at heq
            have hlt1 : n1 / 10 < g1 := by
              have := Nat.div_lt_self (by omega : 0 < n1) (by omega : 1 < 10)
              omega
            have hne := natDecimalAux_ne_nil g1 (n1 / 10) hlt1
            have hlen := congrArg List.length heq
            simp at hlen
            cases List.eq_nil_or_concat (natDecimalAux g1 (n1 / 10)) with
            | inl hnil => exact absurd hnil hne
            | inr hcc => obtain ⟨L, b, hL⟩ := hcc; rw [hL] at hlen; simp at hlen
          · rw [if_neg hs1, if_neg hs2] at heq
            obtain ⟨hinit, hlast⟩ := append_singleton_inj heq
            have hlt1 : n1 / 10 < g1 := by
              have := Nat.div_lt_self (by omega : 0 < n1) (by omega : 1 < 10)
              omega
            have hlt2 : n2 / 10 < g2 := by
              have := Nat.div_lt_self (by omega : 0 < n2) (by omega : 1 < 10)
              omega
            have hdiv := ih (n1 / 10) g2 (n2 / 10) hlt1 hlt2 hinit
            have hmod := decDigitChar_inj (Nat.mod_lt _ (by omega : 0 < 10))
              (Nat.mod_lt _ (by omega : 0 < 10)) hlast
            omega

theorem natDecimal_inj {m n : Nat} (h : natDecimal m = natDecimal n) : m = n :=
  natDecimalAux_inj (m + 1) m (n + 1) n (Nat.lt_succ_self m) (Nat.lt_succ_self n) h

theorem natDecimal_digits (n : Nat) :
    ∀ c ∈ natDecimal n, ∃ d, d < 10 ∧ c = decDigitChar d :=
  natDecimalAux_digits (n + 1) n (Nat.lt_succ_self n)

theorem sanChar_decDigitChar : ∀ d < 10, sanChar (decDigitChar d) = decDigitChar d := by
  decide

theorem mapSanCharFixes : ∀ (l : List Char), (∀ c ∈ l, sanChar c = c) → l.map sanChar = l := by
  intro l h
  induction l with
  | nil => rfl
  | cons a t ih =>
      simp only [List.map_cons, List.cons.injEq]
      exact ⟨h a (by simp), ih (fun c hc => h c (by simp [hc]))⟩

theorem map_sanChar_natDecimal (n : Nat) : (natDecimal n).map sanChar = natDecimal n := by
  apply mapSanCharFixes
  intro c hc
  obtain ⟨d, hd, rfl⟩ := natDecimal_digits n c hc
  exact sanChar_decDigitChar d hd

theorem sanChar_safe : ∀ c, safeChar (sanChar c) = true := by
  intro c
  unfold sanChar
  split
  · assumption
  · decide

theorem charNeOfToNat {c d : Char} (h : c.toNat ≠ d.toNat) : c ≠ d :=
  fun hc => h (by rw [hc])

theorem safeChar_props : ∀ c, safeChar c = true →
    c ≠ '/' ∧ c ≠ '\\' ∧ 32 ≤ c.toNat ∧ c.toNat ≠ 127 := by
  intro c h
  unfold safeChar at h
  simp only [Bool.or_eq_true, Bool.and_eq_true, decide_eq_true_eq] at h
  have h47 : ('/').toNat = 47 := rfl
  have h92 : ('\\').toNat = 92 := rfl
  refine ⟨charNeOfToNat ?_, charNeOfToNat ?_, ?_, ?_⟩ <;> omega

theorem mkResearchId_data (nowMs : Nat) (task : String) :
    (mkResearchId nowMs task).data =
      (("task_" : String).data ++ natDecimal (nowMs / 1000) ++
        ("_" : String).data ++ task.data).map sanChar := by
  unfold mkResearchId sanitize_filename
  simp only [String.data_append]
  rfl

/-- Claim C1 (counterexample): two distinct valid submissions — identical
task text, submitted at different times (100200 ms and 100700 ms) — receive
the same job identity `"task_100_foo"`, because `int(time.time())` truncates
to the same second; so identities are not unique across the process
lifetime. -/
theorem C1_counterexample :
    (100200 : Nat) ≠ 100700 ∧
    (generate_report collab0 env0 req0 100200).response =
      SubmitResult.queued queuedMessage "task_100_foo" ∧
    (generate_report collab0 env0 req0 100700).response =
      SubmitResult.queued queuedMessage "task_100_foo" :=
  ⟨by decide, by decide, by decide⟩

/-- Claim C1 (amended): for submissions with identical task text, the job
identities assigned by the submit operation are equal exactly when the
submissions' integer-second timestamps are equal; identities are therefore
distinct across seconds but collide within one second, and are not unique
across the process lifetime. -/
theorem C1_id_collision_iff : ∀ (t1 t2 : Nat) (task : String),
    mkResearchId t1 task = mkResearchId t2 task ↔ t1 / 1000 = t2 / 1000 := by
  intro t1 t2 task
  constructor
  · intro h
    have hdata := congrArg String.data h
    rw [mkResearchId_data, mkResearchId_data] at hdata
    simp only [List.map_append, List.append_assoc] at hdata
    have h1 := List.append_cancel_left hdata
    have h2 := List.append_cancel_right h1
    rw [map_sanChar_natDecimal, map_sanChar_natDecimal] at h2
    exact natDecimal_inj h2
  · intro h
    unfold mkResearchId natDecimalStr
    rw [h]

/-- Claim C6: every job identity produced at submission time consists only
of storage-key-safe characters — no path separators (`/`, `\`), no control
characters (code points below 32 or 127) — and differs from the literal
task text. -/
theorem C6_research_id_sanitized : ∀ (nowMs : Nat) (task : String),
    (∀ c ∈ (mkResearchId nowMs task).data,
      safeChar c = true ∧ c ≠ '/' ∧ c ≠ '\\' ∧ 32 ≤ c.toNat ∧ c.toNat ≠ 127) ∧
    mkResearchId nowMs task ≠ task := by
  intro nowMs task
  constructor
  · intro c hc
    rw [mkResearchId_data] at hc
    obtain ⟨b, hb, rfl⟩ := List.mem_map.mp hc
    have hs := sanChar_safe b
    exact ⟨hs, safeChar_props _ hs⟩
  · intro h
    have hdata := congrArg String.data h
    rw [mkResearchId_data] at hdata
    have hlen := congrArg List.length hdata
    simp [List.length_append] at hlen
    omega

/-- Claim C6 (witness): the sanitization guarantees evaluated at the
concrete identity `mkResearchId 0 "foo" = "task_0_foo"`, at its character
`'t'`. -/
theorem C6_research_id_sanitized_witness :
    (safeChar 't' = true ∧ 't' ≠ '/' ∧ 't' ≠ '\\' ∧ 32 ≤ 't'.toNat ∧
      't'.toNat ≠ 127) ∧
    mkResearchId 0 "foo" ≠ "foo" :=
  ⟨(C6_research_id_sanitized 0 "foo").1 't' (by decide),
   (C6_research_id_sanitized 0 "foo").2⟩

theorem envAfterConfig_vsRoot (env : Env) (req : ResearchRequest) :
    vsRoot (envAfterConfig env req) = vsRoot env := by
  unfold envAfterConfig vsRoot
  cases req.deep_research_config with
  | none => rfl
  | some cfg => by_cases h : cfg.isEmpty <;> simp [h]

theorem envAfterKb_deep (env : Env) (req : ResearchRequest) :
    (envAfterKb env req).DEEP_RESEARCH_DEPTH = env.DEEP_RESEARCH_DEPTH ∧
    (envAfterKb env req).DEEP_RESEARCH_BREADTH = env.DEEP_RESEARCH_BREADTH := by
  unfold envAfterKb
  cases req.knowledge_base with
  | none => exact ⟨rfl, rfl⟩
  | some kb => by_cases h : kb.isEmpty <;> simp [h]

theorem write_report_env (co : Collab) (env : Env) (req : ResearchRequest)
    (rid : String) :
    (write_report co env req rid).1 = envAfterKb (envAfterConfig env req) req := rfl

/-- Claim C2 (counterexample): a background submission whose tone `"Bogus"`
is outside the enumerated tone set is still acknowledged as queued by the
submit operation — the validation error is not reported synchronously. -/
theorem C2_counterexample :
    reqBadTone.generate_in_background = true ∧
    reqBadTone.tone ∉ toneNames ∧
    (generate_report collab0 env0 reqBadTone 0).response =
      SubmitResult.queued queuedMessage (mkResearchId 0 reqBadTone.task) :=
  ⟨rfl, by decide, by decide⟩

/-- Claim C2 (amended): a submission with a tone outside the enumerated set
fails synchronously with the `KeyError` only in foreground mode (and then
schedules nothing); in background mode it is acknowledged as queued, and the
validation error is raised only when the scheduled `write_report` task
executes. -/
theorem C2_validation_timing : ∀ (co : Collab) (env : Env)
    (req : ResearchRequest) (nowMs : Nat),
    req.tone ∉ toneNames →
    (req.generate_in_background = false →
      (generate_report co env req nowMs).response =
        SubmitResult.failed (keyErrorMsg req.tone) ∧
      (generate_report co env req nowMs).pending = []) ∧
    (req.generate_in_background = true →
      (generate_report co env req nowMs).response =
        SubmitResult.queued queuedMessage (mkResearchId nowMs req.task) ∧
      (write_report co env req (mkResearchId nowMs req.task)).2 =
        Except.error (keyErrorMsg req.tone)) := by
  intro co env req nowMs htone
  have hbody : writeReportBody co env req (mkResearchId nowMs req.task) =
      Except.error (keyErrorMsg req.tone) := by
    unfold writeReportBody
    rw [if_neg htone]
  constructor
  · intro hfg
    unfold generate_report write_report
    rw [hfg]
    simp [hbody]
  · intro hbg
    unfold generate_report write_report
    rw [hbg]
    simp [hbody]

/-- Claim C2 (witness): the amended statement evaluated at the concrete
invalid background submission `reqBadTone`. -/
theorem C2_validation_timing_witness :
    (generate_report collab0 env0 reqBadTone 0).response =
      SubmitResult.queued queuedMessage (mkResearchId 0 reqBadTone.task) ∧
    (write_report collab0 env0 reqBadTone (mkResearchId 0 reqBadTone.task)).2 =
      Except.error (keyErrorMsg reqBadTone.tone) :=
  (C2_validation_timing collab0 env0 reqBadTone 0 (by decide)).2 rfl

/-- Claim C3: a background submission returns the queued acknowledgement
with the assigned identity, schedules the execution as a pending background
task, and its return value is independent of the research computation — the
submit operation returns before the computation runs. -/
theorem C3_background_submit : ∀ (co co' : Collab) (env : Env)
    (req : ResearchRequest) (nowMs : Nat),
    req.generate_in_background = true →
    generate_report co env req nowMs =
      { response := SubmitResult.queued queuedMessage (mkResearchId nowMs req.task),
        pending := [{ req := req, research_id := mkResearchId nowMs req.task }],
        env := env } ∧
    generate_report co env req nowMs = generate_report co' env req nowMs := by
  intro co co' env req nowMs hbg
  unfold generate_report
  rw [hbg]
  simp

/-- Claim C3 (witness): the background-submission contract evaluated at the
concrete request `req0`, against two different research computations. -/
theorem C3_background_submit_witness :
    generate_report collab0 env0 req0 7 =
      { response := SubmitResult.queued queuedMessage (mkResearchId 7 req0.task),
        pending := [{ req := req0, research_id := mkResearchId 7 req0.task }],
        env := env0 } ∧
    generate_report collab0 env0 req0 7 = generate_report collab1 env0 req0 7 :=
  C3_background_submit collab0 collab1 env0 req0 7 rfl

/-- Claim C4 (counterexample): executing a job with a knowledge-base
reference does not leave the process environment unchanged — `write_report`
sets the global `DOC_PATH` to the knowledge base's docs folder. -/
theorem C4_counterexample :
    (write_report collab0 env0 reqKb "rid").1 ≠ env0 ∧
    (write_report collab0 env0 reqKb "rid").1.DOC_PATH =
      some (["vector_store", "kb1", "docs"] : FsPath) ∧
    env0.DOC_PATH = none :=
  ⟨by decide, by decide, rfl⟩

/-- Claim C4 (amended): `write_report` mutates the process-global
environment: with a truthy knowledge-base reference it sets `DOC_PATH` to
`<root>/<kb>/docs`, and with truthy deep-research tuning it sets
`DEEP_RESEARCH_DEPTH` and `DEEP_RESEARCH_BREADTH`; overlapping jobs
therefore share this configuration. -/
theorem C4_env_mutation : ∀ (co : Collab) (env : Env) (req : ResearchRequest)
    (rid : String),
    (∀ kb, req.knowledge_base = some kb → kb.isEmpty = false →
      (write_report co env req rid).1.DOC_PATH =
        some (vsRoot env ++ [kb, "docs"])) ∧
    (∀ cfg, req.deep_research_config = some cfg → cfg.isEmpty = false →
      (write_report co env req rid).1.DEEP_RESEARCH_DEPTH =
        some (toString (dictGet cfg "max_iterations" 2)) ∧
      (write_report co env req rid).1.DEEP_RESEARCH_BREADTH =
        some (toString (dictGet cfg "max_search_results_per_query" 4))) := by
  intro co env req rid
  constructor
  · intro kb hkb hne
    rw [write_report_env]
    unfold envAfterKb
    rw [hkb]
    simp [hne, envAfterConfig_vsRoot]
  · intro cfg hcfg hne
    have hd := envAfterKb_deep (envAfterConfig env req) req
    rw [write_report_env, hd.1, hd.2]
    unfold envAfterConfig
    rw [hcfg]
    simp [hne]

/-- Claim C4 (witness): the environment mutation evaluated at the concrete
request `reqKb` (knowledge base `"kb1"`, `max_iterations = 3`). -/
theorem C4_env_mutation_witness :
    (write_report collab0 env0 reqKb "rid").1.DOC_PATH =
      some (vsRoot env0 ++ ["kb1", "docs"]) ∧
    (write_report collab0 env0 reqKb "rid").1.DEEP_RESEARCH_DEPTH =
      some (toString (dictGet [("max_iterations", 3)] "max_iterations" 2)) ∧
    (write_report collab0 env0 reqKb "rid").1.DEEP_RESEARCH_BREADTH =
      some (toString (dictGet [("max_iterations", 3)] "max_search_results_per_query" 4)) :=
  ⟨(C4_env_mutation collab0 env0 reqKb "rid").1 "kb1" rfl rfl,
   (C4_env_mutation collab0 env0 reqKb "rid").2 [("max_iterations", 3)] rfl rfl⟩

/-- Claim C5: the artifact fetch returns the file when
`outputs/<id>.docx` exists and otherwise the success-shaped
`"Report not found."` message; both responses carry status 200, so the
not-yet-ready case is never an error status (the function consults only the
artifact file, not job state). -/
theorem C5_read_report : ∀ (fs : FS) (rid : String),
    (fsExists fs (outputsDocxPath rid) = true →
      read_report fs rid = ReadReportResult.fileResp (outputsDocxPath rid)) ∧
    (fsExists fs (outputsDocxPath rid) = false →
      read_report fs rid = ReadReportResult.jsonOk "Report not found.") ∧
    readReportStatus (read_report fs rid) = 200 := by
  intro fs rid
  unfold read_report
  cases h : fsExists fs (outputsDocxPath rid) <;> simp [h, readReportStatus]

/-- Claim C5 (witness): `read_report` evaluated against a filesystem holding
`outputs/r1.docx`: the artifact is returned for `r1`, and the not-found
message with status 200 for `r2`. -/
theorem C5_read_report_witness :
    read_report fsDocx "r1" = ReadReportResult.fileResp (outputsDocxPath "r1") ∧
    read_report fsDocx "r2" = ReadReportResult.jsonOk "Report not found." ∧
    readReportStatus (read_report fsDocx "r2") = 200 :=
  ⟨(C5_read_report fsDocx "r1").1 (by decide),
   ((C5_read_report fsDocx "r2").2).1 (by decide),
   ((C5_read_report fsDocx "r2").2).2⟩

/-- Claim C7: a foreground submission runs the computation synchronously:
the submit operation surfaces the computation's failure verbatim, and for a
successful non-`multi_agents` run it returns the full payload — the report
text, both artifact paths, the cost metric and the visited-source list. -/
theorem C7_foreground_result : ∀ (co : Collab) (env : Env)
    (req : ResearchRequest) (nowMs : Nat),
    req.generate_in_background = false → req.tone ∈ toneNames →
    req.report_type ≠ "multi_agents" →
    (∀ e, co.run_agent (runAgentCallOf env req) = Except.error e →
      (generate_report co env req nowMs).response = SubmitResult.failed e) ∧
    (∀ out, co.run_agent (runAgentCallOf env req) = Except.ok out →
      (generate_report co env req nowMs).response = SubmitResult.completed
        { research_id := mkResearchId nowMs req.task,
          research_information := some
            { source_urls := out.source_urls,
              research_costs := out.research_costs,
              visited_urls := out.visited_urls,
              research_images := out.research_images },
          report := out.report,
          docx_path := co.write_md_to_word out.report (mkResearchId nowMs req.task),
          pdf_path := co.write_md_to_pdf out.report (mkResearchId nowMs req.task) }) := by
  intro co env req nowMs hfg htone hmt
  constructor
  · intro e he
    unfold generate_report write_report writeReportBody
    rw [hfg]
    simp [htone, he]
  · intro out hout
    unfold generate_report write_report writeReportBody
    rw [hfg]
    simp [htone, hout, hmt]

/-- Claim C7 (witness): the foreground contract evaluated at the concrete
request `reqFg` against the succeeding computation `collab1`. -/
theorem C7_foreground_result_witness :
    (generate_report collab1 env0 reqFg 12).response = SubmitResult.completed
      { research_id := mkResearchId 12 reqFg.task,
        research_information := some
          { source_urls := outcome0.source_urls,
            research_costs := outcome0.research_costs,
            visited_urls := outcome0.visited_urls,
            research_images := outcome0.research_images },
        report := outcome0.report,
        docx_path := collab1.write_md_to_word outcome0.report (mkResearchId 12 reqFg.task),
        pdf_path := collab1.write_md_to_pdf outcome0.report (mkResearchId 12 reqFg.task) } :=
  (C7_foreground_result collab1 env0 reqFg 12 rfl (by decide) (by decide)).2
    outcome0 rfl

theorem mem_pathInits {p q : FsPath} :
    q ∈ pathInits p ↔ ∃ i, i < p.length ∧ p.take (i + 1) = q := by
  unfold pathInits
  simp [List.mem_map, List.mem_range]

theorem pathInits_ne_nil {p q : FsPath} (hp : p ≠ []) (hq : q ∈ pathInits p) :
    q ≠ [] := by
  rcases mem_pathInits.mp hq with ⟨i, hi, hq'⟩
  subst hq'
  intro hnil
  rw [List.take_eq_nil_iff] at hnil
  rcases hnil with h0 | h0
  · omega
  · exact hp h0

theorem pathInits_length_le {p q : FsPath} (hq : q ∈ pathInits p) :
    q.length ≤ p.length := by
  rcases mem_pathInits.mp hq with ⟨i, hi, hq'⟩
  subst hq'
  simp [List.length_take]

theorem pathInits_mem_append2 (root : FsPath) (a b : String) (hroot : root ≠ []) :
    root ∈ pathInits (root ++ [a, b]) ∧
    (root ++ [a]) ∈ pathInits (root ++ [a, b]) ∧
    (root ++ [a, b]) ∈ pathInits (root ++ [a, b]) := by
  have h0 : 1 ≤ root.length := by
    cases root with
    | nil => exact absurd rfl hroot
    | cons x xs => simp
  have hlen : (root ++ [a, b]).length = root.length + 2 := by simp
  refine ⟨?_, ?_, ?_⟩
  · apply mem_pathInits.mpr
    refine ⟨root.length - 1, by omega, ?_⟩
    rw [show root.length - 1 + 1 = root.length from by omega]
    exact List.take_left root [a, b]
  · apply mem_pathInits.mpr
    refine ⟨root.length, by omega, ?_⟩
    rw [show root ++ [a, b] = (root ++ [a]) ++ [b] from by simp]
    rw [show root.length + 1 = (root ++ [a]).length from by simp]
    exact List.take_left (root ++ [a]) [b]
  · apply mem_pathInits.mpr
    refine ⟨root.length + 1, by omega, ?_⟩
    rw [show root.length + 1 + 1 = (root ++ [a, b]).length from by simp]
    exact List.take_length _

theorem mkdirsList_spec : ∀ (qs : List FsPath) (fs : FS),
    (∀ q ∈ qs, fsIsFile fs q = false) →
    ∃ fs', mkdirsList fs qs = Except.ok fs' ∧
      fs'.files = fs.files ∧
      (∀ r : FsPath, r ∈ fs'.dirs ↔ r ∈ fs.dirs ∨ r ∈ qs) ∧
      (fs.wf → (∀ q ∈ qs, q ≠ []) → fs'.wf) := by
  intro qs
  induction qs with
  | nil =>
      intro fs h
      exact ⟨fs, rfl, rfl, fun r => by simp, fun hw _ => hw⟩
  | cons q qs ih =>
      intro fs h
      cases hd : fsIsDir fs q with
      | true =>
          obtain ⟨fs', h1, h2, h3, h4⟩ :=
            ih fs (fun r hr => h r (List.mem_cons_of_mem _ hr))
          have hqdirs : q ∈ fs.dirs := of_decide_eq_true hd
          refine ⟨fs', by simp [mkdirsList, hd, h1], h2, ?_, ?_⟩
          · intro r
            rw [h3 r]
            constructor
            · rintro (hr | hr)
              · exact Or.inl hr
              · exact Or.inr (List.mem_cons_of_mem _ hr)
            · rintro (hr | hr)
              · exact Or.inl hr
              · rcases List.mem_cons.mp hr with rfl | hr'
                · exact Or.inl hqdirs
                · exact Or.inr hr'
          · intro hw hne
            exact h4 hw (fun r hr => hne r (List.mem_cons_of_mem _ hr))
      | false =>
          have hf : fsIsFile fs q = false := h q (List.mem_cons_self q qs)
          obtain ⟨fs', h1, h2, h3, h4⟩ :=
            ih { dirs := q :: fs.dirs, files := fs.files }
              (fun r hr => h r (List.mem_cons_of_mem _ hr))
          refine ⟨fs', by simp [mkdirsList, hd, hf, h1], h2, ?_, ?_⟩
          · intro r
            rw [h3 r]
            simp only [List.mem_cons]
            tauto
          · intro hw hne
            apply h4
            · constructor
              · show ((q :: fs.dirs) ++ fs.files.map Prod.fst).Nodup
                rw [List.cons_append]
                refine List.nodup_cons.mpr ⟨?_, hw.1⟩
                intro hmem
                rcases List.mem_append.mp hmem with hm | hm
                · exact absurd hm (of_decide_eq_false hd)
                · exact absurd hm (of_decide_eq_false hf)
              · intro hmem
                rcases List.mem_cons.mp hmem with heq | hm
                · exact hne q (List.mem_cons_self q qs) heq.symm
                · exact hw.2 hm
            · exact fun r hr => hne r (List.mem_cons_of_mem _ hr)

theorem makedirs_spec (fs : FS) (p : FsPath)
    (h : ∀ q ∈ pathInits p, fsIsFile fs q = false) :
    ∃ fs', makedirs fs p = Except.ok fs' ∧ fs'.files = fs.files ∧
      (∀ r : FsPath, r ∈ fs'.dirs ↔ r ∈ fs.dirs ∨ r ∈ pathInits p) ∧
      (fs.wf → p ≠ [] → fs'.wf) := by
  obtain ⟨fs', h1, h2, h3, h4⟩ := mkdirsList_spec (pathInits p) fs h
  exact ⟨fs', h1, h2, h3, fun hw hp => h4 hw (fun q hq => pathInits_ne_nil hp hq)⟩

theorem storeFile_dirs (fs : FS) (p : FsPath) (c : String) :
    (storeFile fs p c).dirs = fs.dirs := rfl

theorem storeFile_isFile (fs : FS) (p : FsPath) (c : String) :
    fsIsFile (storeFile fs p c) p = true := by
  unfold fsIsFile storeFile
  simp

theorem storeFile_wf {fs : FS} {p : FsPath} {c : String}
    (hw : fs.wf) (hp : p ∉ fs.dirs) : (storeFile fs p c).wf := by
  obtain ⟨hnd, hnil⟩ := hw
  rw [List.nodup_append] at hnd
  obtain ⟨hd, hf, hdisj⟩ := hnd
  constructor
  · rw [List.nodup_append]
    refine ⟨hd, ?_, ?_⟩
    · show (((p, c) :: fs.files.filter (fun e => decide (e.fst ≠ p))).map Prod.fst).Nodup
      rw [List.map_cons]
      refine List.nodup_cons.mpr ⟨?_, ?_⟩
      · intro hm
        obtain ⟨e, he, hfst⟩ := List.mem_map.mp hm
        exact (of_decide_eq_true (List.mem_filter.mp he).2) hfst
      · exact hf.sublist ((List.filter_sublist fs.files).map Prod.fst)
    · intro a ha hb
      rcases List.mem_cons.mp hb with rfl | hb'
      · exact hp ha
      · obtain ⟨e, he, hfst⟩ := List.mem_map.mp hb'
        exact hdisj ha (List.mem_map.mpr ⟨e, (List.mem_filter.mp he).1, hfst⟩)
  · exact hnil

theorem childName_eq_some (root p : FsPath) (n : String) :
    childName root p = some n ↔ p = root ++ [n] := by
  rcases List.eq_nil_or_concat p with rfl | ⟨L, b, hp⟩
  · simp [childName]
  · rw [List.concat_eq_append] at hp
    subst hp
    simp only [childName, List.getLast?_concat, List.dropLast_concat]
    by_cases h : L = root
    · subst h
      simp
    · simp only [if_neg h]
      constructor
      · intro hc
        exact absurd hc (by simp)
      · intro hc
        exact absurd (append_singleton_inj hc).1 h

theorem gkb_mem (env : Env) (fs : FS) (n : String) :
    n ∈ get_knowledge_bases env fs ↔
      fsIsDir fs (vsRoot env) = true ∧ (vsRoot env ++ [n]) ∈ fs.dirs := by
  unfold get_knowledge_bases
  cases hroot : fsIsDir fs (vsRoot env) with
  | false => simp [hroot]
  | true =>
      simp only [hroot, if_true, List.mem_filter, List.mem_filterMap, true_and]
      constructor
      · rintro ⟨⟨p, hp, hcn⟩, hdir⟩
        rw [childName_eq_some] at hcn
        subst hcn
        exact of_decide_eq_true hdir
      · intro hmem
        refine ⟨⟨vsRoot env ++ [n], ?_, (childName_eq_some _ _ _).mpr rfl⟩, ?_⟩
        · exact List.mem_append.mpr (Or.inl hmem)
        · exact decide_eq_true hmem

theorem gkb_nodup (env : Env) (fs : FS) (hw : fs.wf) :
    (get_knowledge_bases env fs).Nodup := by
  unfold get_knowledge_bases
  cases hroot : fsIsDir fs (vsRoot env) with
  | false => simp [hroot]
  | true =>
      simp only [hroot, if_true]
      apply List.Nodup.filter
      apply List.Nodup.filterMap ?_ hw.1
      intro a a' b hb hb'
      rw [Option.mem_def, childName_eq_some] at hb hb'
      rw [hb, hb']

/-- Claim C9: an upload with a non-empty knowledge-base name creates every
missing intermediate directory of `<root>/<kb>/docs` (succeeding whether or
not they already existed, provided no regular file blocks the path), stores
the uploaded file there, and reports success. -/
theorem C9_upload_creates_dirs : ∀ (env : Env) (fs : FS)
    (filename content kb : String),
    kb ≠ "" →
    (∀ q ∈ pathInits (vsRoot env ++ [kb, "docs"]), fsIsFile fs q = false) →
    uploadStatus (upload_file env fs filename content kb).1 = 200 ∧
    (∀ q ∈ pathInits (vsRoot env ++ [kb, "docs"]),
      fsIsDir (upload_file env fs filename content kb).2 q = true) ∧
    fsIsFile (upload_file env fs filename content kb).2
      (vsRoot env ++ [kb, "docs", filename]) = true := by
  intro env fs filename content kb hkb hfiles
  have hkbe : kb.isEmpty = false := by
    cases hke : kb.isEmpty
    · rfl
    · exact absurd ((String.isEmpty_iff kb).mp hke) hkb
  have hassoc : (vsRoot env ++ [kb]) ++ ["docs"] = vsRoot env ++ [kb, "docs"] := by
    simp
  obtain ⟨fs1, h1, h2, h3, h4⟩ := makedirs_spec fs (vsRoot env ++ [kb, "docs"]) hfiles
  have hup : upload_file env fs filename content kb =
      handle_file_upload fs1 (vsRoot env ++ [kb, "docs"]) filename content := by
    unfold upload_file
    rw [hkbe]
    simp only [Bool.false_eq_true, if_false]
    rw [hassoc, h1]
  rw [hup]
  unfold handle_file_upload
  refine ⟨rfl, ?_, ?_⟩
  · intro q hq
    unfold fsIsDir
    rw [storeFile_dirs]
    exact decide_eq_true ((h3 q).mpr (Or.inr hq))
  · rw [show (vsRoot env ++ [kb, "docs"]) ++ [filename] =
        vsRoot env ++ [kb, "docs", filename] from by simp]
    exact storeFile_isFile _ _ _

/-- Claim C9 (witness): the upload contract evaluated at a filesystem where
the knowledge-base directories already exist. -/
theorem C9_upload_creates_dirs_witness :
    uploadStatus (upload_file env0 fsPre "f.pdf" "body" "kb1").1 = 200 ∧
    (∀ q ∈ pathInits (vsRoot env0 ++ ["kb1", "docs"]),
      fsIsDir (upload_file env0 fsPre "f.pdf" "body" "kb1").2 q = true) ∧
    fsIsFile (upload_file env0 fsPre "f.pdf" "body" "kb1").2
      (vsRoot env0 ++ ["kb1", "docs", "f.pdf"]) = true :=
  C9_upload_creates_dirs env0 fsPre "f.pdf" "body" "kb1" (by decide) (by decide)

/-- Claim C10: uploading with an empty knowledge-base name returns the 400
validation response with its explanatory message and leaves the filesystem
untouched — no directory is created and no file is stored. -/
theorem C10_upload_empty_kb : ∀ (env : Env) (fs : FS) (filename content : String),
    upload_file env fs filename content "" =
      (UploadResult.badRequest "Knowledge base name is required.", fs) ∧
    uploadStatus (upload_file env fs filename content "").1 = 400 := by
  intro env fs filename content
  exact ⟨rfl, rfl⟩

/-- Claim C8: the knowledge-base listing names exactly the subdirectories of
the vector-store root, each exactly once (no duplicates, membership is
equivalent to being a subdirectory), it is empty when the root is not a
directory, and after an upload into `"kb1"` the name `"kb1"` appears exactly
once. -/
theorem C8_knowledge_bases : ∀ (env : Env) (fs : FS), fs.wf →
    ((fsIsDir fs (vsRoot env) = false → get_knowledge_bases env fs = []) ∧
     (get_knowledge_bases env fs).Nodup ∧
     (∀ n, n ∈ get_knowledge_bases env fs ↔
        fsIsDir fs (vsRoot env) = true ∧ (vsRoot env ++ [n]) ∈ fs.dirs)) ∧
    (∀ filename content : String, vsRoot env ≠ [] →
      (∀ q ∈ pathInits (vsRoot env ++ ["kb1", "docs"]), fsIsFile fs q = false) →
      (vsRoot env ++ ["kb1", "docs", filename]) ∉ fs.dirs →
      (get_knowledge_bases env
        (upload_file env fs filename content "kb1").2).count "kb1" = 1) := by
  intro env fs hw
  constructor
  · refine ⟨?_, gkb_nodup env fs hw, fun n => gkb_mem env fs n⟩
    intro hroot
    unfold get_knowledge_bases
    simp [hroot]
  · intro filename content hroot hfiles hnewdir
    obtain ⟨fs1, h1, h2, h3, h4⟩ :=
      makedirs_spec fs (vsRoot env ++ ["kb1", "docs"]) hfiles
    have hup : upload_file env fs filename content "kb1" =
        handle_file_upload fs1 (vsRoot env ++ ["kb1", "docs"]) filename content := by
      unfold upload_file
      rw [show ("kb1" : String).isEmpty = false from rfl]
      simp only [Bool.false_eq_true, if_false]
      rw [show (vsRoot env ++ ["kb1"]) ++ ["docs"] =
          vsRoot env ++ ["kb1", "docs"] from by simp, h1]
    rw [hup]
    unfold handle_file_upload
    have hstored : (vsRoot env ++ ["kb1", "docs"]) ++ [filename] =
        vsRoot env ++ ["kb1", "docs", filename] := by simp
    have hpne : (vsRoot env ++ ["kb1", "docs"] : FsPath) ≠ [] := by
      intro hc
      have := congrArg List.length hc
      simp at this
    have hwf1 : fs1.wf := h4 hw hpne
    have hnotdir : (vsRoot env ++ ["kb1", "docs"]) ++ [filename] ∉ fs1.dirs := by
      intro hc
      rcases (h3 _).mp hc with hin | hin
      · rw [hstored] at hin
        exact hnewdir hin
      · have hle := pathInits_length_le hin
        simp at hle
    have hwf2 : (storeFile fs1 ((vsRoot env ++ ["kb1", "docs"]) ++ [filename])
        content).wf := storeFile_wf hwf1 hnotdir
    have hmems := pathInits_mem_append2 (vsRoot env) "kb1" "docs" hroot
    have hrootdir : vsRoot env ∈ fs1.dirs := (h3 _).mpr (Or.inr hmems.1)
    have hkbdir : (vsRoot env ++ ["kb1"]) ∈ fs1.dirs := (h3 _).mpr (Or.inr hmems.2.1)
    have hmem : "kb1" ∈ get_knowledge_bases env
        (storeFile fs1 ((vsRoot env ++ ["kb1", "docs"]) ++ [filename]) content) := by
      apply (gkb_mem _ _ _).mpr
      rw [show (storeFile fs1 ((vsRoot env ++ ["kb1", "docs"]) ++ [filename])
          content).dirs = fs1.dirs from rfl] at *
      constructor
      · unfold fsIsDir
        rw [storeFile_dirs]
        exact decide_eq_true hrootdir
      · exact hkbdir
    exact List.count_eq_one_of_mem (gkb_nodup _ _ hwf2) hmem

/-- Claim C8 (witness): the listing contract evaluated at the empty
filesystem, and the scenario — upload into `"kb1"`, then list — evaluated
concretely: `"kb1"` appears exactly once. -/
theorem C8_knowledge_bases_witness :
    (get_knowledge_bases env0 fs0).Nodup ∧
    (get_knowledge_bases env0
      (upload_file env0 fs0 "f.pdf" "body" "kb1").2).count "kb1" = 1 :=
  ⟨((C8_knowledge_bases env0 fs0 ⟨by decide, by decide⟩).1).2.1,
   (C8_knowledge_bases env0 fs0 ⟨by decide, by decide⟩).2 "f.pdf" "body"
     (by decide) (by decide) (by decide)⟩
